import Mathlib

/-!
Shallow embedding of the APSViz-Supervisor workflow control loop
(`src/supervisor/job_supervisor.py`, `src/supervisor/job_create.py`,
`src/common/pg_utils.py`, `src/common/utils.py`, `src/common/job_enums.py`)
together with proofs about the run state machine, the intake loop, the
cluster translator resource/volume builders and the database adapter.

Modelling conventions:
* Python dictionaries keyed by `JobType` become lists / functions over the
  `JobType` inductive.  `JobType` is a `str` mixin enum in the source, so a
  string key such as `'final-staging'` and the enum member
  `JobType.FINAL_STAGING` are interchangeable dictionary keys; membership
  tests on the run dictionary are therefore modelled as membership of the
  `JobType` in the set of configured step records.
* Machine integers are `Nat`/`Int`; the Python `int()` truncation of a
  nonnegative float is `Int.floor` of the corresponding rational.
* Fallible code (raising `KeyError`, `ValueError`, `IndexError`, DB
  exceptions) returns `Option`/`Except`.
* Cluster side effects are reflected as fields of the run record
  (counters for the executed `final-staging` steps and for the cleanup
  sweep) and as the lists of volumes/mounts a builder returns.
-/

namespace APSViz

/-! ## `src/common/job_enums.py` -/

/-- `JobType` from `job_enums.py`: a `str` mixin enum of the step names. -/
inductive JobType
  | STAGING
  | HAZUS
  | LOAD_GEO_SERVER
  | LOAD_GEO_SERVER_S3
  | FINAL_STAGING
  | ADCIRC2COG_TIFF
  | GEOTIFF2COG
  | OBS_MOD_AST
  | ADCIRCTIME_TO_COG
  | AST_RUN_HARVESTER
  | COLLAB_DATA_SYNC
  | ADCIRC_TO_KALPANA_COG
  | TIMESERIESDB_INGEST
  | DATABASE
  | OS
  | FORENSICS
  | ERROR
  | COMPLETE
deriving DecidableEq, Repr, Fintype

/-- The string value of each enum member (`JobType.<x>.value` in Python). -/
def JobType.value : JobType → String
  | .STAGING => "staging"
  | .HAZUS => "hazus"
  | .LOAD_GEO_SERVER => "load-geo-server"
  | .LOAD_GEO_SERVER_S3 => "load-geo-server-s3"
  | .FINAL_STAGING => "final-staging"
  | .ADCIRC2COG_TIFF => "adcirc2cog-tiff"
  | .GEOTIFF2COG => "geotiff2cog"
  | .OBS_MOD_AST => "obs-mod-ast"
  | .ADCIRCTIME_TO_COG => "adcirctime-to-cog"
  | .AST_RUN_HARVESTER => "ast-run-harvester"
  | .COLLAB_DATA_SYNC => "collab-data-sync"
  | .ADCIRC_TO_KALPANA_COG => "adcirc-to-kalpana-cog"
  | .TIMESERIESDB_INGEST => "timeseriesdb-ingest"
  | .DATABASE => "database"
  | .OS => "os"
  | .FORENSICS => "forensics"
  | .ERROR => "error"
  | .COMPLETE => "complete"

/-- `JobStatus` from `job_enums.py` (an `int` mixin enum in the source). -/
inductive JobStatus
  | NEW
  | RUNNING
  | COMPLETE
  | WARNING
  | ERROR
deriving DecidableEq, Repr

/-! ## `src/common/pg_utils.py` -/

/-- Outcome of `cursor.execute` plus `cursor.fetchone` inside
`PGUtils.exec_sql`: either the statement raised, or `fetchone` returned
`None` (no row), or it returned a row whose first column is NULL or a
value of type `α`. -/
inductive FetchOutcome (α : Type)
  | raises : FetchOutcome α
  | fetched : Option (Option α) → FetchOutcome α
deriving DecidableEq, Repr

/-- `PGUtils.exec_sql` (pg_utils.py lines 139-174): runs the statement and
returns the first column of the single row, or the sentinel `-1` when the
query yields no row, a NULL single column, or raises any exception. -/
def exec_sql {α : Type} (outcome : FetchOutcome α) : Sum Int α :=
  match outcome with
  | .raises => Sum.inl (-1)
  | .fetched none => Sum.inl (-1)
  | .fetched (some none) => Sum.inl (-1)
  | .fetched (some (some v)) => Sum.inr v

/-- `PGUtils.get_new_runs` (pg_utils.py lines 189-207): fetch the queued
run records and turn the `-1` sentinel into `None`. -/
def get_new_runs {α : Type} [DecidableEq α] (outcome : FetchOutcome α) :
    Option (Sum Int α) :=
  let ret_val := exec_sql outcome
  if ret_val = Sum.inl (-1) then none else some ret_val

/-- Python `str.split(sep)` for a one-character separator, on the
character list: split at every separator occurrence, keeping empty
pieces. -/
def pySplitAux (sep : Char) : List Char → List Char → List (List Char)
  | [], acc => [acc.reverse]
  | c :: rest, acc =>
    if c = sep then acc.reverse :: pySplitAux sep rest []
    else pySplitAux sep rest (c :: acc)

/-- Python `str.split(sep)` for a one-character separator. -/
def pySplit (sep : Char) (s : String) : List String :=
  (pySplitAux sep s.data []).map String.mk

/-- Python `int(s)` restricted to plain decimal-digit strings (the only
shape the supervisor feeds it); any other shape raises `ValueError` in
the source and is `none` here. -/
def pyIntNat (s : String) : Option Nat :=
  if s.data ≠ [] ∧ s.data.all Char.isDigit then
    some (s.data.foldl (fun a c => 10 * a + (c.toNat - 48)) 0)
  else none

/-- Python slicing `s[:n]`: the first `n` characters. -/
def pyTake (s : String) (n : Nat) : String :=
  String.mk (s.data.take n)

/-- Python `str.startswith(p)`. -/
def pyStartsWith (s p : String) : Bool :=
  p.data.isPrefixOf s.data

/-- The argument tuple passed to the `public.set_config_item` stored
procedure by `PGUtils.update_job_status`. -/
structure SetConfigItemCall where
  instanceId : Nat
  configKey : String
  itemName : String
  itemValue : String
deriving DecidableEq, Repr

/-- `PGUtils.update_job_status` (pg_utils.py lines 209-225): split the run
id on hyphens, convert the first segment with `int(...)`, use the second
and third segments joined by a hyphen as the opaque key, and pass the
provenance truncated to its first 1024 characters.  Index or integer
conversion failures raise in the source and are modelled as `none`.
Hyphen-separated segments beyond the third are ignored, exactly as in
the source (`run[1]`/`run[2]` only). -/
def update_job_status (run_id value : String) : Option SetConfigItemCall :=
  let run := pySplit '-' run_id
  match run[0]?, run[1]?, run[2]? with
  | some r0, some r1, some r2 =>
    match pyIntNat r0 with
    | some n => some ⟨n, r1 ++ "-" ++ r2, "supervisor_job_status", pyTake value 1024⟩
    | none => none
  | _, _, _ => none

/-- The full provenance write: parse failures raise to the caller, but the
database round trip itself goes through `exec_sql`, which swallows every
exception, so the write never raises once the run id parses. -/
def update_job_status_run {α : Type} (run_id value : String)
    (outcome : FetchOutcome α) : Except String Unit :=
  match update_job_status run_id value with
  | none => Except.error "invalid run id"
  | some _ =>
    match exec_sql outcome with
    | _ => Except.ok ()

/-! ## `src/common/utils.py` -/

/-- `Utils.get_run_time_delta` (utils.py lines 99-114), as a function of
the elapsed seconds (`delta.seconds`): `divmod(seconds, 60)` rendered as
an `in X minutes, Y seconds` string. -/
def get_run_time_delta (delta_seconds : Nat) : String :=
  "in " ++ toString (delta_seconds / 60) ++ " minutes, " ++
    toString (delta_seconds % 60) ++ " seconds"

/-! ## `src/supervisor/job_create.py`: resources, NFS volume, server tests -/

/-- Python `int()` applied to a real number: truncation toward zero. -/
def pyTrunc (q : ℚ) : ℤ := if 0 ≤ q then ⌊q⌋ else -⌊-q⌋

/-- `''.join(x for x in run_config['MEMORY'] if x.isdigit())`
(job_create.py line 209). -/
def memory_val_txt (memory : String) : String :=
  String.mk (memory.toList.filter Char.isDigit)

/-- `''.join(x for x in run_config['MEMORY'] if not x.isdigit())`
(job_create.py line 210). -/
def memory_unit_txt (memory : String) : String :=
  String.mk (memory.toList.filter (fun c => ! c.isDigit))

/-- `int(memory_val_txt) + int(int(memory_val_txt) * self.limit_multiplier)`
(job_create.py line 211).  `none` when the digit part of `MEMORY` does not
parse as an integer (the source raises `ValueError` there). -/
def memory_limit_val (memory : String) (limit_multiplier : ℚ) : Option ℤ :=
  match pyIntNat (memory_val_txt memory) with
  | none => none
  | some v => some ((v : ℤ) + pyTrunc ((v : ℚ) * limit_multiplier))

/-- `f'{memory_limit_val}{memory_unit_txt}'` (job_create.py line 212). -/
def memory_limit (memory : String) (limit_multiplier : ℚ) : Option String :=
  match memory_limit_val memory limit_multiplier with
  | none => none
  | some v => some (toString v ++ memory_unit_txt memory)

/-- The resource block built for each container
(job_create.py lines 201-241). -/
structure ResourceSpec where
  requestCpu : String
  requestMemory : String
  requestEphemeral : String
  limitMemory : String
  limitEphemeral : String
  limitCpu : Option String
deriving DecidableEq, Repr

/-- The step template fields consumed by the resource computation. -/
structure ResourceCfg where
  MEMORY : String
  CPUS : String
  POD_EPHEMERAL_LIMIT : Option String
deriving DecidableEq, Repr

/-- The per-container `resources` dictionary of `create_job_object`
(job_create.py lines 192-241): memory request is the template `MEMORY`
verbatim, the memory limit is the truncated multiplied value with the
non-digit characters of `MEMORY` re-appended, the cpu limit is present
only under the `CPU_LIMITS` flag. -/
def container_resources (cfg : ResourceCfg) (limit_multiplier : ℚ)
    (cpu_limits : Bool) : Option ResourceSpec :=
  let pod_ephemeral_limit :=
    match cfg.POD_EPHEMERAL_LIMIT with
    | some v => v
    | none => "128Mi"
  let cpus := if cfg.CPUS = "" then "250m" else cfg.CPUS
  match memory_limit cfg.MEMORY limit_multiplier with
  | none => none
  | some mem_limit =>
    if cpu_limits then
      match memory_limit cpus limit_multiplier with
      | none => none
      | some cpu_limit =>
        some ⟨cpus, cfg.MEMORY, "64Mi", mem_limit, pod_ephemeral_limit, some cpu_limit⟩
    else
      some ⟨cpus, cfg.MEMORY, "64Mi", mem_limit, pod_ephemeral_limit, none⟩

/-- A container of the job pod: its assembled command plus its resource
block (the remaining fields of `client.V1Container` are not needed by the
claims). -/
structure ContainerSpec where
  command : List String
  resources : ResourceSpec
deriving DecidableEq, Repr

/-- Python `list.remove(x)`: removes the first occurrence only. -/
def pyRemoveFirst (x : String) (l : List String) : List String :=
  match l with
  | [] => []
  | a :: rest => if a = x then rest else a :: pyRemoveFirst x rest

/-- The container list of `create_job_object` (job_create.py lines
201-258): one container per `COMMAND_MATRIX` entry, each with command
`COMMAND_LINE ⊕ matrix_entry` with the first empty string removed, and
the common resource block. -/
def create_containers (command_line : List String)
    (command_matrix : List (List String)) (cfg : ResourceCfg)
    (limit_multiplier : ℚ) (cpu_limits : Bool) : Option (List ContainerSpec) :=
  match container_resources cfg limit_multiplier cpu_limits with
  | none => none
  | some res =>
    some (command_matrix.map (fun item =>
      let new_cmd_list := command_line ++ item
      let new_cmd_list :=
        if "" ∈ new_cmd_list then pyRemoveFirst "" new_cmd_list else new_cmd_list
      ⟨new_cmd_list, res⟩))

/-- `JobCreate.is_server_process` (job_create.py lines 450-465). -/
def is_server_process (job_type : JobType) : Bool :=
  job_type = JobType.OS ∨ job_type = JobType.DATABASE

/-- `JobCreate.is_db_server_process` (job_create.py lines 467-482). -/
def is_db_server_process (job_type : JobType) : Bool :=
  job_type = JobType.DATABASE

/-- `JobCreate.is_os_server_process` (job_create.py lines 484-499). -/
def is_os_server_process (job_type : JobType) : Bool :=
  job_type = JobType.OS

/-- A pod volume, reduced to the constructors the claims mention. -/
inductive Volume
  | pvc (name claim : String)
  | nfs (server path : String)
  | emptyDir (name : String)
deriving DecidableEq, Repr

/-- A volume mount. -/
structure VolumeMount where
  name : String
  mountPath : String
deriving DecidableEq, Repr

/-- `client.V1PodSecurityContext`: either the empty context
(`V1PodSecurityContext(None)`) or explicit user/group/fs-group ids. -/
inductive PodSecurityContext
  | empty
  | ids (run_as_group run_as_user fs_group : Nat)
deriving DecidableEq, Repr

/-- The base-config values consumed by `declare_nfs_volume`. -/
structure NfsConfig where
  NFS_SERVER : String
  NFS_PATH : String
  NFS_MOUNT : String
deriving DecidableEq, Repr

/-- `JobCreate.declare_nfs_volume` (job_create.py lines 366-394),
translated branch for branch.  The source nests
`if not self.is_os_server_process(job_type)` directly inside
`if self.is_os_server_process(job_type)`, so the volume/mount/security
context code is translated inside that same unsatisfiable guard. -/
def declare_nfs_volume (sv_config : NfsConfig) (job_type : JobType)
    (volume_mounts : List VolumeMount) (volumes : List Volume) :
    PodSecurityContext × List VolumeMount × List Volume :=
  let ret_val : PodSecurityContext := PodSecurityContext.empty
  if is_os_server_process job_type then
    if ¬ is_os_server_process job_type then
      let volumes := volumes ++ [Volume.nfs sv_config.NFS_SERVER sv_config.NFS_PATH]
      let volume_mounts := volume_mounts ++ [⟨"nfs-vol", sv_config.NFS_MOUNT⟩]
      if ¬ is_server_process job_type then
        (PodSecurityContext.ids 999 999 1049, volume_mounts, volumes)
      else
        (ret_val, volume_mounts, volumes)
    else
      (ret_val, volume_mounts, volumes)
  else
    (ret_val, volume_mounts, volumes)

/-! ## `src/supervisor/job_supervisor.py`: intake
(`check_for_duplicate_run`, `get_incomplete_runs`) -/

/-- An entry of the in-memory active-run list, reduced to the fields the
intake path reads and writes (`id` and `status_prov`). -/
structure ActiveRun where
  id : String
  status_prov : String
deriving DecidableEq, Repr

/-- A provenance write performed through
`update_job_status(run_id, value)`. -/
structure DbWrite where
  runId : String
  value : String
deriving DecidableEq, Repr

/-- `JobSupervisor.check_for_duplicate_run` (job_supervisor.py lines
610-629): scan the whole active-run list, setting the flag whenever an
entry with the same id is seen. -/
def check_for_duplicate_run (run_list : List ActiveRun) (new_run_id : String) :
    Bool :=
  run_list.foldl (fun ret_val item => if item.id = new_run_id then true else ret_val)
    false

/-- One queued request as returned by `get_new_runs`, after the field
accesses `get_incomplete_runs` performs on it.  `missingParamsMsg` is the
comma-joined list of missing required parameters from
`check_input_params`; `supervisorJobStatus` is
`run['run_data']['supervisor_job_status']`; `firstJob` is the result of
`get_first_job(workflow_type)`. -/
structure QueuedRun where
  runId : String
  missingParamsMsg : String
  supervisorJobStatus : String
  firstJob : Option JobType
  physicalLocation : String
  workflowType : String
deriving DecidableEq, Repr

/-- The body of the per-request loop of `JobSupervisor.get_incomplete_runs`
(job_supervisor.py lines 654-723): duplicate suppression first, then
parameter validation, then start-state recognition, then first-job
resolution, and only then the append to the active list plus the
`run accepted` provenance write.  A rejected duplicate gets the single
write `Duplicate run rejected.` and leaves the list unchanged. -/
def process_queued_run (state : List ActiveRun × List DbWrite) (run : QueuedRun) :
    List ActiveRun × List DbWrite :=
  let run_list := state.1
  let writes := state.2
  if ¬ check_for_duplicate_run run_list run.runId then
    if run.missingParamsMsg.length > 0 then
      (run_list,
        writes ++ [⟨run.runId,
          "Error - Run lacks the required run properties (" ++
            run.missingParamsMsg ++ ")."⟩])
    else
      let job_prov :=
        if pyStartsWith run.supervisorJobStatus "new" then
          some ("New " ++ run.physicalLocation ++ " APS (" ++ run.workflowType ++ ")")
        else if pyStartsWith run.supervisorJobStatus "debug" then
          some ("New debug " ++ run.physicalLocation ++ " APS (" ++ run.workflowType ++ ")")
        else none
      match job_prov with
      | none => (run_list, writes)
      | some jp =>
        match run.firstJob with
        | none => (run_list, writes)
        | some _ =>
          (run_list ++ [⟨run.runId, jp ++ " run accepted"⟩],
            writes ++ [⟨run.runId, jp ++ " run accepted"⟩])
  else
    (run_list, writes ++ [⟨run.runId, "Duplicate run rejected."⟩])

/-- `JobSupervisor.get_incomplete_runs` over one batch of queued runs. -/
def get_incomplete_runs (run_list : List ActiveRun) (writes : List DbWrite)
    (runs : List QueuedRun) : List ActiveRun × List DbWrite :=
  runs.foldl process_queued_run (run_list, writes)

/-- One supervisor-loop tick as the active-run list sees it: intake of the
queued batch, then per-run handling, which can only remove entries
(`handle_job_complete` and the exception handlers call
`run_list.remove`); the removals of a tick are abstracted as a keep
predicate. -/
def supervisor_list_tick (run_list : List ActiveRun)
    (batch : List QueuedRun) (keep : ActiveRun → Bool) : List ActiveRun :=
  ((get_incomplete_runs run_list [] batch).1).filter keep

/-- Iterated supervisor-loop ticks starting from an active-run list. -/
def supervisor_list_ticks (run_list : List ActiveRun)
    (ticks : List (List QueuedRun × (ActiveRun → Bool))) : List ActiveRun :=
  ticks.foldl (fun st t => supervisor_list_tick st t.1 t.2) run_list

/-! ## `src/supervisor/job_supervisor.py`: the run state machine
(`run`, `handle_run`, `handle_job_error`, `handle_job_complete`) -/

/-- One step template, reduced to the fields the state machine reads:
`NEXT_JOB_TYPE` (held as a `JobType`; the source stores the string and
converts with `JobType(...)` on succession) and `PARALLEL`. -/
structure StepCfg where
  next : JobType
  parallel : List JobType
deriving DecidableEq, Repr

/-- A workflow definition: the per-job-type step templates of
`self.k8s_job_configs[run['workflow_type']]`.  `none` models a missing
dictionary key. -/
structure Workflow where
  steps : JobType → Option StepCfg

/-- Total lookup used by the embedding of `handle_run`.  A missing key
raises `KeyError` in the source (caught by the loop-level handler);
the theorems below always assume the lookups they exercise succeed, so
the default value is never observed by them. -/
def stepOf (wf : Workflow) (job_type : JobType) : StepCfg :=
  (wf.steps job_type).getD ⟨JobType.COMPLETE, []⟩

/-- The `job_status` string returned by `JobFind.find_job_info`, as
dispatched on by the `startswith` chain of `handle_run`. -/
inductive KJobStat
  | Pending
  | Running
  | Timeout
  | Failed
  | Complete
deriving DecidableEq, Repr

/-- The cluster-facing nondeterminism consumed by one tick of the state
machine for one run: per-job-type create success
(`JobCreate.execute` returning a job id or `None`), the
`find_job_info` triple, whether `delete_job` reported failure
(`'{}'` or a status containing `Failed`), and the elapsed seconds used
by `get_run_time_delta`. -/
structure TickInput where
  createOk : JobType → Bool
  found : Bool
  jobStat : KJobStat
  podFailed : Bool
  delFailed : Bool
  elapsed : Nat

/-- The per-run state: the mutated keys of the Python `run` dictionary
plus instrumentation.  `steps` is the set of `JobType` keys holding a
step record (`run[job_type] = {'run-config': ...}`); `writes` is the
sequence of `status_prov` values this run has written through
`update_job_status`; `fsCreates` counts the `JobCreate.execute` calls
with job type `final-staging`; `cleanupSweeps` counts the
`clean_up_jobs_and_svcs` invocations; `removed` records
`run_list.remove(run)`. -/
structure Run where
  jobType : JobType
  status : JobStatus
  status_prov : String
  steps : List JobType
  writes : List String
  fsCreates : Nat
  cleanupSweeps : Nat
  removed : Bool
  physicalLocation : String
  workflowType : String
deriving Repr

/-- Step-record insertion (`run[job_type] = {'run-config': config}`):
dictionary key semantics, so re-inserting an existing key keeps one
entry. -/
def insertStep (job_type : JobType) (steps : List JobType) : List JobType :=
  if job_type ∈ steps then steps else steps ++ [job_type]

/-- `JobSupervisor.handle_job_error` (job_supervisor.py lines 229-262).
The membership test `'final-staging' in run` is the membership of
`FINAL_STAGING` in the step records (`JobType` is a `str` enum, so the
string indexes the same dictionary slot as the member). -/
def handle_job_error (wf : Workflow) (r : Run) : Run :=
  if (wf.steps JobType.FINAL_STAGING).isNone then
    let p := r.status_prov ++ ", error detected in a " ++ r.physicalLocation ++
      " run of type " ++ r.workflowType ++ ". No cleanup occurred."
    { r with status_prov := p, jobType := JobType.COMPLETE,
             status := JobStatus.ERROR, writes := r.writes ++ [p] }
  else if JobType.FINAL_STAGING ∈ r.steps then
    let p := r.status_prov ++ ", error detected for a " ++ r.physicalLocation ++
      " run in final staging. An incomplete cleanup may have occurred."
    { r with status_prov := p, jobType := JobType.COMPLETE,
             status := JobStatus.ERROR, writes := r.writes ++ [p] }
  else
    let p := r.status_prov ++ ", error detected"
    { r with status_prov := p, jobType := JobType.FINAL_STAGING,
             status := JobStatus.NEW, writes := r.writes ++ [p] }

/-- `JobSupervisor.handle_job_complete` (job_supervisor.py lines
264-298): append the duration provenance, write it to the database, and
remove the run from the active list.  No call into the cluster
translator is made (in particular `clean_up_jobs_and_svcs` is not
invoked), so `cleanupSweeps` is untouched. -/
def handle_job_complete (delta_seconds : Nat) (r : Run) : Run :=
  let duration := get_run_time_delta delta_seconds
  let p := r.status_prov ++ ", run complete " ++ duration
  { r with status_prov := p, writes := r.writes ++ [p], removed := true }

/-- `JobCreate.clean_up_jobs_and_svcs` (job_create.py lines 734-762):
the cleanup sweep over the run step records, force-deleting each one.
No code in the repository calls it; it is embedded here so that the
`cleanupSweeps` counter can witness that fact. -/
def clean_up_jobs_and_svcs (r : Run) : Run :=
  { r with cleanupSweeps := r.cleanupSweeps + 1 }

/-- The creation loop of the `NEW` branch of `handle_run`
(job_supervisor.py lines 423-450): for each job type in the launch list,
build the step run-config (inserting the step record), execute the
create, set `RUNNING` plus the `running` provenance write on success or
`ERROR` on failure, and stop early when the step successor is
`complete`. -/
def create_jobs_loop (wf : Workflow) (inp : TickInput) :
    List JobType → Run → Run
  | [], r => r
  | job_type :: rest, r =>
    let r := { r with steps := insertStep job_type r.steps,
                      fsCreates := r.fsCreates +
                        (if job_type = JobType.FINAL_STAGING then 1 else 0) }
    let r :=
      if inp.createOk job_type then
        let p := r.status_prov ++ ", " ++ job_type.value ++ " running"
        { r with status := JobStatus.RUNNING, status_prov := p,
                 writes := r.writes ++ [p] }
      else
        { r with status := JobStatus.ERROR }
    if (stepOf wf job_type).next = JobType.COMPLETE then r
    else create_jobs_loop wf inp rest r

/-- The `NEW` block of `handle_run` (job_supervisor.py lines 412-450):
build the launch list (`{current job type} ∪ PARALLEL`) and run the
creation loop over it. -/
def handle_run_new (wf : Workflow) (inp : TickInput) (r : Run) : Run :=
  if r.status = JobStatus.NEW then
    let job_type_list :=
      [r.jobType] ++
        (if (stepOf wf r.jobType).parallel ≠ [] then (stepOf wf r.jobType).parallel
         else [])
    create_jobs_loop wf inp job_type_list r
  else r

/-- The `RUNNING` inspection block of `handle_run` (job_supervisor.py
lines 452-530): report, then dispatch on the `find_job_info` result,
deleting the job and either erroring out or appending the `complete`
provenance and advancing to the successor step (re-creating it on the
next tick when its step record is absent, and in that case also popping
every step record other than `staging` from the run). -/
def handle_run_inspect (wf : Workflow) (inp : TickInput) (r : Run) : Run :=
  if r.status = JobStatus.RUNNING ∧ r.status ≠ JobStatus.ERROR then
    let r :=
      if inp.found ∧ inp.jobStat = KJobStat.Failed then
        { r with status_prov := r.status_prov ++ ", " ++ r.jobType.value ++ " failed" }
      else r
    if inp.found then
      if inp.jobStat = KJobStat.Timeout ∨ inp.jobStat = KJobStat.Failed then
        { r with status := JobStatus.ERROR }
      else if inp.jobStat = KJobStat.Complete ∧ ¬ inp.podFailed then
        if inp.delFailed then
          { r with status := JobStatus.ERROR }
        else
          let p := r.status_prov ++ ", " ++ r.jobType.value ++ " complete"
          let r := { r with status_prov := p, writes := r.writes ++ [p] }
          let nxt := (stepOf wf r.jobType).next
          let r := { r with jobType := nxt }
          if nxt ∉ r.steps ∨ nxt = JobType.STAGING then
            { r with steps := r.steps.filter (fun i => i = JobType.STAGING),
                     status := JobStatus.NEW }
          else r
      else if inp.podFailed then
        { r with status := JobStatus.ERROR }
      else r
    else
      { r with status := JobStatus.ERROR }
  else r

/-- The closing lines of `handle_run` (job_supervisor.py lines 532-534):
an `ERROR` status demotes the job type to `ERROR`. -/
def handle_run_fixup (r : Run) : Run :=
  if r.status = JobStatus.ERROR then { r with jobType := JobType.ERROR } else r

/-- `JobSupervisor.handle_run` (job_supervisor.py lines 398-537): the
`NEW` block, then (in the same call) the `RUNNING` inspection block,
then the final demotion of an `ERROR` status to the `ERROR` job type. -/
def handle_run (wf : Workflow) (inp : TickInput) (r : Run) : Run :=
  handle_run_fixup (handle_run_inspect wf inp (handle_run_new wf inp r))

/-- One iteration of the supervisor loop (`JobSupervisor.run`,
job_supervisor.py lines 133-189) as observed by a single run: completed
runs are finalized, errored runs are routed through the error handler,
all others go through `handle_run`.  A run already removed from the list
is no longer processed. -/
def tick (wf : Workflow) (inp : TickInput) (r : Run) : Run :=
  if r.removed then r
  else if r.jobType = JobType.COMPLETE then handle_job_complete inp.elapsed r
  else if r.jobType = JobType.ERROR then handle_job_error wf r
  else handle_run wf inp r

/-- Iterated supervisor-loop ticks applied to one run. -/
def ticks (wf : Workflow) (r : Run) (inputs : List TickInput) : Run :=
  inputs.foldl (fun st inp => tick wf inp st) r

/-! ## Invariants used by the theorems -/

/-- The database writes `ws` of a run are adjacent-prefix-ordered and all
of them are prefixes of the current provenance `p`. -/
def WritesChain (ws : List String) (p : String) : Prop :=
  List.Chain' (fun a b => a.data <+: b.data) ws ∧ ∀ w ∈ ws, w.data <+: p.data

/-- The global invariant behind the failure-routing theorem: the
`final-staging` step has been created at most once; a step record for it
exists exactly when it has been created; and once created, the run is in
one of the shapes from which the state machine can never create it
again. -/
def FsInv (r : Run) : Prop :=
  r.fsCreates ≤ 1
  ∧ (JobType.FINAL_STAGING ∈ r.steps → r.fsCreates = 1)
  ∧ (r.fsCreates = 1 →
      r.removed = true
      ∨ r.jobType = JobType.COMPLETE
      ∨ (r.jobType = JobType.ERROR ∧ JobType.FINAL_STAGING ∈ r.steps)
      ∨ (r.jobType = JobType.FINAL_STAGING ∧ r.status = JobStatus.RUNNING
          ∧ JobType.FINAL_STAGING ∈ r.steps))

/-- The progress invariant: after a failure that happened strictly before
`final-staging`, either the cleanup step has already been created, or
the run is still alive and about to be routed into creating it. -/
def FsDue (r : Run) : Prop :=
  1 ≤ r.fsCreates
  ∨ (r.removed = false
      ∧ (r.jobType = JobType.ERROR
         ∨ (r.jobType = JobType.FINAL_STAGING ∧ r.status = JobStatus.NEW)))

/-! ## Concrete fixtures for the witnesses and counterexamples -/

/-- A workflow with no `final-staging` step. -/
def wfNoFS : Workflow := ⟨fun _ => none⟩

/-- A two-step workflow `staging → final-staging → complete`. -/
def wfTwoStep : Workflow :=
  ⟨fun jt =>
    if jt = JobType.STAGING then some ⟨JobType.FINAL_STAGING, []⟩
    else if jt = JobType.FINAL_STAGING then some ⟨JobType.COMPLETE, []⟩
    else none⟩

/-- A workflow whose `staging` step has a `hazus` parallel sibling. -/
def wfParallel : Workflow :=
  ⟨fun jt =>
    if jt = JobType.STAGING then some ⟨JobType.HAZUS, [JobType.HAZUS]⟩
    else if jt = JobType.HAZUS then some ⟨JobType.COMPLETE, []⟩
    else none⟩

/-- A freshly accepted run positioned at `staging`. -/
def runStart : Run :=
  ⟨JobType.STAGING, JobStatus.NEW, "New RENCI APS (simple) run accepted", [],
    ["New RENCI APS (simple) run accepted"], 0, 0, false, "RENCI", "simple"⟩

/-- A run that has reached the `COMPLETE` job type. -/
def runAtComplete : Run :=
  ⟨JobType.COMPLETE, JobStatus.RUNNING, "prov, staging complete", [],
    ["prov, staging complete"], 0, 0, false, "RENCI", "simple"⟩

/-- A run that has reached the `ERROR` job type before `final-staging`. -/
def runAtError : Run :=
  ⟨JobType.ERROR, JobStatus.ERROR, "prov, staging failed", [JobType.STAGING],
    ["prov"], 0, 0, false, "RENCI", "simple"⟩

/-- A tick input whose job inspection reports a still-pending job. -/
def inpPending : TickInput :=
  ⟨fun _ => true, true, KJobStat.Running, false, false, 0⟩

/-- A tick input under which every create succeeds except `staging`. -/
def inpStagingCreateFails : TickInput :=
  ⟨fun jt => !(jt = JobType.STAGING : Bool), true, KJobStat.Running, false, false, 0⟩

/-- A tick input whose job inspection reports a failed job. -/
def inpFailed : TickInput :=
  ⟨fun _ => true, true, KJobStat.Failed, false, false, 0⟩

/-- A tick input whose job inspection reports successful completion. -/
def inpComplete : TickInput :=
  ⟨fun _ => true, true, KJobStat.Complete, false, false, 125⟩

/-- A three-step workflow
`staging → final-staging → load-geo-server → complete`, in which
`final-staging` is not the last step. -/
def wfThreeStep : Workflow :=
  ⟨fun jt =>
    if jt = JobType.STAGING then some ⟨JobType.FINAL_STAGING, []⟩
    else if jt = JobType.FINAL_STAGING then some ⟨JobType.LOAD_GEO_SERVER, []⟩
    else if jt = JobType.LOAD_GEO_SERVER then some ⟨JobType.COMPLETE, []⟩
    else none⟩

/-- A queued request for run `7-a-b` with all required parameters. -/
def qEx : QueuedRun :=
  ⟨"7-a-b", "", "new", some JobType.STAGING, "RENCI", "simple"⟩

/-- The prefix of a launch list the creation loop actually processes:
it stops after the first job type whose successor is `complete`. -/
def attempted (wf : Workflow) : List JobType → List JobType
  | [] => []
  | jt :: rest =>
    if (stepOf wf jt).next = JobType.COMPLETE then [jt]
    else jt :: attempted wf rest

/-! # Theorems -/

/-- C10: `exec_sql` returns the sentinel `-1` when the query yields no
row, when the single column is NULL, and when executing the statement
raises; consequently `get_new_runs` returns `None` on a database error
exactly as on an empty queue, and `update_job_status` never raises to
its caller when the provenance write itself fails. -/
theorem exec_sql_sentinel {α : Type} [DecidableEq α] :
    exec_sql (FetchOutcome.raises (α := α)) = Sum.inl (-1)
    ∧ exec_sql (FetchOutcome.fetched (α := α) none) = Sum.inl (-1)
    ∧ exec_sql (FetchOutcome.fetched (α := α) (some none)) = Sum.inl (-1)
    ∧ get_new_runs (FetchOutcome.raises (α := α)) = none
    ∧ get_new_runs (FetchOutcome.fetched (α := α) none) =
        get_new_runs (FetchOutcome.raises (α := α))
    ∧ ∀ (run_id value : String) (outcome : FetchOutcome α) (c : SetConfigItemCall),
        update_job_status run_id value = some c →
        update_job_status_run run_id value outcome = Except.ok () := by
  refine ⟨rfl, rfl, rfl, rfl, rfl, ?_⟩
  intro run_id value outcome c hc
  unfold update_job_status_run
  rw [hc]

/-- Witness for `exec_sql_sentinel`: the provenance write for run
`1-a-b` returns normally even when the database statement raises. -/
theorem exec_sql_sentinel_witness :
    update_job_status_run (α := Int) "1-a-b" "x" FetchOutcome.raises = Except.ok () :=
  (exec_sql_sentinel (α := Int)).2.2.2.2.2 "1-a-b" "x" FetchOutcome.raises
    ⟨1, "a-b", "supervisor_job_status", "x"⟩ (by decide)

/-- C9: for a run id of the three-segment form
`<numeric>-<discriminator1>-<discriminator2>`, `update_job_status`
invokes `set_config_item` with the integer value of the first segment,
the remainder of the id as the key, and the provenance truncated to its
first 1024 characters; the Python function itself returns `None`. -/
theorem update_job_status_call (run_id value ns d1 d2 : String) (n : Nat)
    (hsplit : pySplit '-' run_id = [ns, d1, d2])
    (hn : pyIntNat ns = some n) :
    update_job_status run_id value =
      some ⟨n, d1 ++ "-" ++ d2, "supervisor_job_status", pyTake value 1024⟩ := by
  unfold update_job_status
  rw [hsplit]
  simp [hn]

/-- Witness for `update_job_status_call` at run id `4358-2023-ec95d`. -/
theorem update_job_status_call_witness :
    update_job_status "4358-2023-ec95d" "done" =
      some ⟨4358, "2023" ++ "-" ++ "ec95d", "supervisor_job_status", pyTake "done" 1024⟩ :=
  update_job_status_call "4358-2023-ec95d" "done" "4358" "2023" "ec95d" 4358
    (by decide) (by decide)

/-- C7: `declare_nfs_volume` adds no volume, adds no mount, and returns
the empty pod security context for every job type, including the
designated server processes: the guard
`if not self.is_os_server_process(job_type)` sits directly inside
`if self.is_os_server_process(job_type)`, so the NFS/security-context
code is unreachable, contradicting the comments of the function
(`mount the NFS volume if this is a server`). -/
theorem declare_nfs_volume_noop (sv_config : NfsConfig) (job_type : JobType)
    (volume_mounts : List VolumeMount) (volumes : List Volume) :
    declare_nfs_volume sv_config job_type volume_mounts volumes =
      (PodSecurityContext.empty, volume_mounts, volumes) := by
  unfold declare_nfs_volume
  split
  · simp
  · rfl

/-- C3 counterexample: on a concrete run at job type `COMPLETE`, the
complete handler performs no cleanup sweep (the `cleanupSweeps`
instrumentation counter stays at zero; `clean_up_jobs_and_svcs` has no
caller anywhere in the repository), contradicting the claim that the
handler invokes the translator cleanup sweep. -/
theorem handle_job_complete_no_sweep_cex :
    (handle_job_complete 125 runAtComplete).cleanupSweeps = 0
    ∧ clean_up_jobs_and_svcs runAtComplete ≠ handle_job_complete 125 runAtComplete
    ∧ (handle_job_complete 125 runAtComplete).cleanupSweeps ≠
        runAtComplete.cleanupSweeps + 1 := by
  refine ⟨rfl, ?_, by decide⟩
  intro h
  exact absurd (congrArg Run.cleanupSweeps h) (by decide)

/-- C3 (amended): the complete handler computes the duration from the
run start, appends `, run complete in X minutes, Y seconds`, writes the
resulting provenance to the database, and removes the run from the
active list; it performs no cleanup sweep. -/
theorem handle_job_complete_behavior (r : Run) (delta m s : Nat)
    (hdelta : delta = 60 * m + s) (hs : s < 60) :
    (handle_job_complete delta r).removed = true
    ∧ (handle_job_complete delta r).status_prov =
        r.status_prov ++ ", run complete " ++
          ("in " ++ toString m ++ " minutes, " ++ toString s ++ " seconds")
    ∧ (handle_job_complete delta r).writes =
        r.writes ++ [(handle_job_complete delta r).status_prov]
    ∧ (handle_job_complete delta r).cleanupSweeps = r.cleanupSweeps
    ∧ (handle_job_complete delta r).steps = r.steps := by
  have hdiv : delta / 60 = m := by
    subst hdelta
    rw [Nat.mul_add_div (by norm_num), Nat.div_eq_of_lt hs, Nat.add_zero]
  have hmod : delta % 60 = s := by
    subst hdelta
    rw [Nat.mul_add_mod, Nat.mod_eq_of_lt hs]
  refine ⟨rfl, ?_, rfl, rfl, rfl⟩
  unfold handle_job_complete get_run_time_delta
  rw [hdiv, hmod]

/-- Witness for `handle_job_complete_behavior`: 125 elapsed seconds give
`2 minutes, 5 seconds` and the run leaves the active list. -/
theorem handle_job_complete_behavior_witness :
    (handle_job_complete 125 runAtComplete).removed = true
    ∧ (handle_job_complete 125 runAtComplete).status_prov =
        runAtComplete.status_prov ++ ", run complete " ++
          ("in " ++ toString 2 ++ " minutes, " ++ toString 5 ++ " seconds") :=
  ⟨(handle_job_complete_behavior runAtComplete 125 2 5 (by norm_num) (by norm_num)).1,
   (handle_job_complete_behavior runAtComplete 125 2 5 (by norm_num) (by norm_num)).2.1⟩

/-- C6: in a workflow with no `final-staging` step, the error handler
creates no additional step (the step records and the creation counter
are untouched), marks the run terminal with job type `COMPLETE` and
status `ERROR`, and leaves the provenance ending in
`No cleanup occurred.`, which is then written to the database. -/
theorem handle_job_error_no_cleanup (wf : Workflow) (r : Run)
    (hwf : (wf.steps JobType.FINAL_STAGING).isNone) :
    (handle_job_error wf r).jobType = JobType.COMPLETE
    ∧ (handle_job_error wf r).status = JobStatus.ERROR
    ∧ (handle_job_error wf r).status_prov =
        r.status_prov ++ ", error detected in a " ++ r.physicalLocation ++
          " run of type " ++ r.workflowType ++ ". No cleanup occurred."
    ∧ (∃ pre : String, (handle_job_error wf r).status_prov = pre ++ "No cleanup occurred.")
    ∧ (handle_job_error wf r).steps = r.steps
    ∧ (handle_job_error wf r).fsCreates = r.fsCreates
    ∧ (handle_job_error wf r).writes = r.writes ++ [(handle_job_error wf r).status_prov] := by
  unfold handle_job_error
  rw [if_pos hwf]
  refine ⟨rfl, rfl, rfl, ?_, rfl, rfl, rfl⟩
  refine ⟨r.status_prov ++ ", error detected in a " ++ r.physicalLocation ++
    " run of type " ++ r.workflowType ++ ". ", ?_⟩
  have hsplit2 : (". No cleanup occurred." : String) = ". " ++ "No cleanup occurred." := rfl
  dsimp only
  rw [hsplit2]
  simp [String.append_assoc]

/-- Witness for `handle_job_error_no_cleanup` on a workflow with no
steps at all. -/
theorem handle_job_error_no_cleanup_witness :
    (handle_job_error wfNoFS runAtError).jobType = JobType.COMPLETE
    ∧ (handle_job_error wfNoFS runAtError).status = JobStatus.ERROR
    ∧ (∃ pre : String,
        (handle_job_error wfNoFS runAtError).status_prov = pre ++ "No cleanup occurred.") :=
  ⟨(handle_job_error_no_cleanup wfNoFS runAtError (by decide)).1,
   (handle_job_error_no_cleanup wfNoFS runAtError (by decide)).2.1,
   (handle_job_error_no_cleanup wfNoFS runAtError (by decide)).2.2.2.1⟩

/-- Rebuilding a string from its character list is the identity. -/
theorem string_mk_data (s : String) : String.mk s.data = s := by
  cases s
  rfl

/-- C8 counterexample: for the template memory value `5Gi` and limit
multiplier `1/2`, the code computes the limit `7Gi`
(`5 + int(5 * 0.5) = 7`), while the claimed value
`MEMORY × (1 + JOB_LIMIT_MULTIPLIER)` is `7.5`, so the limit is not the
exact product. -/
theorem memory_limit_cex :
    memory_limit "5Gi" (1/2) = some "7Gi"
    ∧ memory_limit_val "5Gi" (1/2) = some 7
    ∧ ((7 : ℚ) ≠ (5 : ℚ) * (1 + 1/2)) := by
  have h1 : pyIntNat (memory_val_txt "5Gi") = some 5 := by decide
  have h2 : pyTrunc (((5:ℕ):ℚ) * (1/2)) = 2 := by
    have h3 : ((5:ℕ):ℚ) * (1/2) = 5/2 := by norm_num
    rw [h3]
    unfold pyTrunc
    rw [if_pos (by norm_num)]
    norm_num
  refine ⟨?_, ?_, by norm_num⟩
  · simp only [memory_limit, memory_limit_val, h1]
    rw [h2]
    decide
  · simp only [memory_limit_val, h1]
    rw [h2]
    norm_num

/-- C8 (amended): for a step template whose `MEMORY` is a digit string
`d` (of value `v`) followed by a digit-free unit suffix `u`, and a
nonnegative limit multiplier, every container of the built job requests
exactly the template `MEMORY`, and the memory limit is the integer
floor `⌊v × (1 + multiplier)⌋` with the unit suffix re-appended
verbatim. -/
theorem memory_limit_floor (d u : String) (v : Nat) (mult : ℚ)
    (hv : pyIntNat d = some v)
    (hu : ∀ c ∈ u.data, c.isDigit = false)
    (hm : 0 ≤ mult)
    (cfg : ResourceCfg) (hmem : cfg.MEMORY = d ++ u)
    (command_line : List String) (command_matrix : List (List String)) :
    memory_limit (d ++ u) mult = some (toString ⌊(v : ℚ) * (1 + mult)⌋ ++ u)
    ∧ ∃ l, create_containers command_line command_matrix cfg mult false = some l
        ∧ l.length = command_matrix.length
        ∧ ∀ c ∈ l, c.resources.requestMemory = cfg.MEMORY
            ∧ c.resources.limitMemory = toString ⌊(v : ℚ) * (1 + mult)⌋ ++ u := by
  have hall : d.data ≠ [] ∧ d.data.all Char.isDigit := by
    by_contra hcon
    rw [pyIntNat, if_neg hcon] at hv
    exact Option.noConfusion hv
  have hval : memory_val_txt (d ++ u) = d := by
    unfold memory_val_txt
    show String.mk (((d ++ u).data).filter Char.isDigit) = d
    rw [String.data_append, List.filter_append]
    rw [List.filter_eq_self.mpr (fun a ha => (List.all_eq_true.mp hall.2) a ha)]
    rw [List.filter_eq_nil.mpr (fun a ha => by rw [hu a ha]; exact Bool.false_ne_true)]
    rw [List.append_nil, string_mk_data]
  have hunit : memory_unit_txt (d ++ u) = u := by
    unfold memory_unit_txt
    show String.mk (((d ++ u).data).filter (fun c => ! c.isDigit)) = u
    rw [String.data_append, List.filter_append]
    rw [List.filter_eq_nil.mpr (fun a ha => by
      rw [(List.all_eq_true.mp hall.2) a ha]
      exact Bool.false_ne_true)]
    rw [List.filter_eq_self.mpr (fun a ha => by rw [hu a ha]; rfl)]
    rw [List.nil_append, string_mk_data]
  have htrunc : pyTrunc ((v : ℚ) * mult) = ⌊(v : ℚ) * mult⌋ := by
    unfold pyTrunc
    rw [if_pos (mul_nonneg (Nat.cast_nonneg v) hm)]
  have hcast : ((v : ℕ) : ℚ) = ((v : ℤ) : ℚ) := by push_cast; ring
  have hfloor : (v : ℤ) + ⌊(v : ℚ) * mult⌋ = ⌊(v : ℚ) * (1 + mult)⌋ := by
    rw [mul_add, mul_one, hcast, Int.floor_int_add]
  have hlimval : memory_limit_val (d ++ u) mult = some ⌊(v : ℚ) * (1 + mult)⌋ := by
    unfold memory_limit_val
    rw [hval, hv]
    dsimp only
    rw [htrunc, hfloor]
  have hlim : memory_limit (d ++ u) mult = some (toString ⌊(v : ℚ) * (1 + mult)⌋ ++ u) := by
    unfold memory_limit
    rw [hlimval, hunit]
  refine ⟨hlim, ?_⟩
  have hres : container_resources cfg mult false =
      some ⟨if cfg.CPUS = "" then "250m" else cfg.CPUS, cfg.MEMORY, "64Mi",
        toString ⌊(v : ℚ) * (1 + mult)⌋ ++ u,
        (match cfg.POD_EPHEMERAL_LIMIT with | some w => w | none => "128Mi"), none⟩ := by
    unfold container_resources
    rw [hmem, hlim]
    simp
  refine ⟨command_matrix.map (fun item =>
    ⟨(let cl := command_line ++ item
      if "" ∈ cl then pyRemoveFirst "" cl else cl),
     ⟨if cfg.CPUS = "" then "250m" else cfg.CPUS, cfg.MEMORY, "64Mi",
      toString ⌊(v : ℚ) * (1 + mult)⌋ ++ u,
      (match cfg.POD_EPHEMERAL_LIMIT with | some w => w | none => "128Mi"), none⟩⟩), ?_, ?_, ?_⟩
  · unfold create_containers
    rw [hres]
  · rw [List.length_map]
  · intro c hc
    rw [List.mem_map] at hc
    obtain ⟨item, _, hitem⟩ := hc
    rw [← hitem]
    exact ⟨rfl, rfl⟩

/-- Witness for `memory_limit_floor` at the template memory `5Gi` and
multiplier `1/2`. -/
theorem memory_limit_floor_witness :
    memory_limit ("5" ++ "Gi") (1/2) =
      some (toString ⌊((5 : ℕ) : ℚ) * (1 + 1/2)⌋ ++ "Gi") :=
  (memory_limit_floor "5" "Gi" 5 (1/2) (by decide) (by decide) (by norm_num)
    ⟨"5" ++ "Gi", "1", none⟩ rfl [] [[]]).1


/-- `check_for_duplicate_run` is the existence of an active entry with
the same id. -/
theorem check_for_duplicate_run_iff (l : List ActiveRun) (rid : String) :
    check_for_duplicate_run l rid = true ↔ ∃ e ∈ l, e.id = rid := by
  unfold check_for_duplicate_run
  suffices h : ∀ b : Bool,
      (l.foldl (fun ret_val item => if item.id = rid then true else ret_val) b = true
        ↔ (b = true ∨ ∃ e ∈ l, e.id = rid)) by
    simpa using h false
  induction l with
  | nil => intro b; simp
  | cons a l ih =>
    intro b
    rw [List.foldl_cons, ih]
    by_cases ha : a.id = rid
    · simp [ha]
    · simp only [if_neg ha]
      constructor
      · rintro (hb | ⟨e, he, hid⟩)
        · exact Or.inl hb
        · exact Or.inr ⟨e, List.mem_cons_of_mem a he, hid⟩
      · rintro (hb | ⟨e, he, hid⟩)
        · exact Or.inl hb
        · rcases List.mem_cons.mp he with rfl | he2
          · exact absurd hid ha
          · exact Or.inr ⟨e, he2, hid⟩

/-- The per-request intake either leaves the active list unchanged or,
only when the duplicate check passes, appends a single entry with the
request id. -/
theorem process_queued_run_cases (s : List ActiveRun × List DbWrite) (q : QueuedRun) :
    (process_queued_run s q).1 = s.1 ∨
    (check_for_duplicate_run s.1 q.runId = false ∧
      ∃ e : ActiveRun, e.id = q.runId ∧ (process_queued_run s q).1 = s.1 ++ [e]) := by
  unfold process_queued_run
  by_cases hdup : check_for_duplicate_run s.1 q.runId = true
  · rw [if_neg (by simp [hdup])]
    exact Or.inl rfl
  · rw [if_pos (by simpa using hdup)]
    by_cases hmiss : q.missingParamsMsg.length > 0
    · rw [if_pos hmiss]
      exact Or.inl rfl
    · rw [if_neg hmiss]
      by_cases hnew : pyStartsWith q.supervisorJobStatus "new" = true
      · simp only [hnew, if_true]
        cases hfj : q.firstJob with
        | none => simp
        | some jt =>
          refine Or.inr ⟨by simpa using hdup,
            ⟨q.runId,
              ("New " ++ q.physicalLocation ++ " APS (" ++ q.workflowType ++ ")") ++
                " run accepted"⟩, rfl, ?_⟩
          simp
      · simp only [hnew, if_false, Bool.false_eq_true]
        by_cases hdbg : pyStartsWith q.supervisorJobStatus "debug" = true
        · simp only [hdbg, if_true]
          cases hfj : q.firstJob with
          | none => simp
          | some jt =>
            refine Or.inr ⟨by simpa using hdup,
              ⟨q.runId,
                ("New debug " ++ q.physicalLocation ++ " APS (" ++ q.workflowType ++ ")") ++
                  " run accepted"⟩, rfl, ?_⟩
            simp
        · simp [hnew, hdbg]

/-- Intake over a whole queued batch preserves distinctness of the
active-run ids. -/
theorem foldl_process_nodup (batch : List QueuedRun) :
    ∀ p : List ActiveRun × List DbWrite,
      (p.1.map ActiveRun.id).Nodup →
      ((batch.foldl process_queued_run p).1.map ActiveRun.id).Nodup := by
  induction batch with
  | nil => intro p h; exact h
  | cons q batch ih =>
    intro p h
    rw [List.foldl_cons]
    refine ih _ ?_
    rcases process_queued_run_cases p q with heq | ⟨hdup, e, hid, heq⟩
    · rw [heq]; exact h
    · rw [heq, List.map_append, List.map_singleton]
      rw [List.nodup_append]
      refine ⟨h, List.nodup_singleton _, ?_⟩
      intro x hx
      simp only [List.mem_singleton]
      intro hxe
      rw [List.mem_map] at hx
      obtain ⟨a, ha, hax⟩ := hx
      have : ∃ e2 ∈ p.1, e2.id = q.runId := ⟨a, ha, by rw [hax, hxe, hid]⟩
      rw [← check_for_duplicate_run_iff] at this
      rw [hdup] at this
      exact Bool.false_ne_true this

/-- In a list with distinct ids, at most one entry carries any given
id. -/
theorem nodup_ids_filter_le_one (l : List ActiveRun)
    (h : (l.map ActiveRun.id).Nodup) (rid : String) :
    (l.filter (fun e => e.id = rid)).length ≤ 1 := by
  induction l with
  | nil => simp
  | cons a l ih =>
    rw [List.map_cons, List.nodup_cons] at h
    by_cases ha : a.id = rid
    · rw [List.filter_cons, if_pos (by simpa using ha)]
      have hnil : l.filter (fun e => e.id = rid) = [] := by
        rw [List.filter_eq_nil]
        intro e he
        simp only [decide_eq_true_eq]
        intro hrid
        exact h.1 (List.mem_map.mpr ⟨e, he, by rw [hrid, ha]⟩)
      rw [hnil]
      simp
    · rw [List.filter_cons, if_neg (by simpa using ha)]
      exact ih h.2

/-- C2: across every sequence of supervisor-loop ticks the active-run
list holds at most one entry per run id; a queued run is admitted only
when the duplicate check passes; and a duplicate gets exactly the single
provenance write `Duplicate run rejected.` with the active list left
unchanged. -/
theorem duplicate_run_suppression :
    (∀ (tks : List (List QueuedRun × (ActiveRun → Bool))) (rid : String),
      ((supervisor_list_ticks [] tks).filter (fun e => e.id = rid)).length ≤ 1)
    ∧ (∀ (s : List ActiveRun × List DbWrite) (q : QueuedRun),
        check_for_duplicate_run s.1 q.runId = true →
        process_queued_run s q = (s.1, s.2 ++ [⟨q.runId, "Duplicate run rejected."⟩]))
    ∧ (∀ (s : List ActiveRun × List DbWrite) (q : QueuedRun),
        (process_queued_run s q).1 ≠ s.1 →
        check_for_duplicate_run s.1 q.runId = false) := by
  refine ⟨?_, ?_, ?_⟩
  · intro tks rid
    have hnodup : ∀ (tks : List (List QueuedRun × (ActiveRun → Bool)))
        (st : List ActiveRun), (st.map ActiveRun.id).Nodup →
        ((supervisor_list_ticks st tks).map ActiveRun.id).Nodup := by
      intro tks
      induction tks with
      | nil => intro st h; exact h
      | cons t tks ih =>
        intro st h
        refine ih _ ?_
        unfold supervisor_list_tick
        have hsub : ((((get_incomplete_runs st [] t.1).1).filter t.2).map ActiveRun.id).Sublist
            (((get_incomplete_runs st [] t.1).1).map ActiveRun.id) :=
          List.Sublist.map _ (List.filter_sublist _)
        exact List.Nodup.sublist hsub (foldl_process_nodup t.1 (st, []) h)
    exact nodup_ids_filter_le_one _ (hnodup tks [] (by simp)) rid
  · intro s q hdup
    unfold process_queued_run
    rw [if_neg (by simp [hdup])]
  · intro s q hne
    rcases process_queued_run_cases s q with heq | ⟨hdup, _, _, _⟩
    · exact absurd heq hne
    · exact hdup

/-- Witness for `duplicate_run_suppression`: with run `7-a-b` already
active, re-queueing it writes `Duplicate run rejected.` and adds no
entry. -/
theorem duplicate_run_suppression_witness :
    process_queued_run ([⟨"7-a-b", "p"⟩], []) qEx =
      ([⟨"7-a-b", "p"⟩], [⟨"7-a-b", "Duplicate run rejected."⟩]) := by
  have h := duplicate_run_suppression.2.1 ([⟨"7-a-b", "p"⟩], []) qEx (by decide)
  simpa using h

/-- C5 counterexample: the run `7-a-b` is accepted (first write
`New RENCI APS (simple) run accepted`); when the same id is fetched
again, the write `Duplicate run rejected.` is issued for the same run
id, and it does not extend the previously written provenance, so the
sequence of `status_prov` values written for that run id is not
prefix-ordered. -/
theorem prov_writes_not_prefix_cex :
    (get_incomplete_runs (get_incomplete_runs [] [] [qEx]).1
        (get_incomplete_runs [] [] [qEx]).2 [qEx]).2 =
      [⟨"7-a-b", "New RENCI APS (simple) run accepted"⟩,
       ⟨"7-a-b", "Duplicate run rejected."⟩]
    ∧ ¬ (("New RENCI APS (simple) run accepted" : String).data <+:
          ("Duplicate run rejected." : String).data) := by
  constructor
  · decide
  · decide

/-- `attempted` is empty only on the empty launch list. -/
theorem attempted_eq_nil_iff (wf : Workflow) (l : List JobType) :
    attempted wf l = [] ↔ l = [] := by
  cases l with
  | nil => simp [attempted]
  | cons jt rest =>
    simp only [attempted]
    constructor
    · intro h
      by_cases hbr : (stepOf wf jt).next = JobType.COMPLETE
      · rw [if_pos hbr] at h
        exact absurd h (by simp)
      · rw [if_neg hbr] at h
        exact absurd h (by simp)
    · intro h
      exact absurd h (by simp)

/-- C4 counterexample: with `staging` carrying the parallel sibling
`hazus`, a failing Create for `staging` followed by a succeeding Create
for `hazus` leaves the run status `RUNNING` at the end of the `NEW`
transition, although a Create in the launch list failed. -/
theorem create_failure_overwritten_cex :
    inpStagingCreateFails.createOk JobType.STAGING = false
    ∧ JobType.STAGING ∈
        [runStart.jobType] ++ (stepOf wfParallel runStart.jobType).parallel
    ∧ runStart.status = JobStatus.NEW
    ∧ (handle_run wfParallel inpStagingCreateFails runStart).status = JobStatus.RUNNING
    ∧ (handle_run wfParallel inpStagingCreateFails runStart).status ≠ JobStatus.ERROR :=
  ⟨by decide, by decide, by decide, by decide, by decide⟩

/-- C4 (amended): the status at the end of the creation loop is decided
by the last Create actually attempted: `RUNNING` when it succeeded,
`ERROR` when it failed.  Each failing Create sets `ERROR` at that point,
but a later sibling Create in the same launch list overwrites it. -/
theorem create_jobs_loop_status (wf : Workflow) (inp : TickInput) :
    ∀ (l : List JobType) (r : Run) (jlast : JobType),
      (attempted wf l).getLast? = some jlast →
      (create_jobs_loop wf inp l r).status =
        (if inp.createOk jlast then JobStatus.RUNNING else JobStatus.ERROR) := by
  intro l
  induction l with
  | nil => intro r jlast h; simp [attempted] at h
  | cons jt rest ih =>
    intro r jlast h
    rw [attempted] at h
    by_cases hbr : (stepOf wf jt).next = JobType.COMPLETE
    · rw [if_pos hbr] at h
      have hj : jt = jlast := by simpa using h
      subst hj
      cases hc : inp.createOk jt <;> simp [create_jobs_loop, hbr, hc]
    · rw [if_neg hbr] at h
      cases hrest : attempted wf rest with
      | nil =>
        have hr0 : rest = [] := (attempted_eq_nil_iff wf rest).mp hrest
        rw [hrest] at h
        have hj : jt = jlast := by simpa using h
        subst hj
        subst hr0
        cases hc : inp.createOk jt <;> simp [create_jobs_loop, attempted, hbr, hc]
      | cons b bs =>
        rw [hrest, List.getLast?_cons_cons] at h
        cases hc : inp.createOk jt <;>
          simp [create_jobs_loop, hbr, hc, ih _ _ (hrest ▸ h)]

/-- Witness for `create_jobs_loop_status`: the launch list
`[staging, hazus]` with a failing `staging` Create ends with the status
decided by the `hazus` Create. -/
theorem create_jobs_loop_status_witness :
    (create_jobs_loop wfParallel inpStagingCreateFails
        [JobType.STAGING, JobType.HAZUS] runStart).status =
      (if inpStagingCreateFails.createOk JobType.HAZUS then JobStatus.RUNNING
       else JobStatus.ERROR) :=
  create_jobs_loop_status wfParallel inpStagingCreateFails
    [JobType.STAGING, JobType.HAZUS] runStart JobType.HAZUS (by decide)

/-- Membership in a step-record insertion. -/
theorem insertStep_mem (x jt : JobType) (steps : List JobType) :
    x ∈ insertStep jt steps ↔ x ∈ steps ∨ x = jt := by
  unfold insertStep
  by_cases h : jt ∈ steps
  · rw [if_pos h]
    constructor
    · exact Or.inl
    · rintro (hx | rfl)
      · exact hx
      · exact h
  · rw [if_neg h]
    simp

/-- The inserted step is a member. -/
theorem insertStep_self (jt : JobType) (steps : List JobType) :
    jt ∈ insertStep jt steps :=
  (insertStep_mem jt jt steps).mpr (Or.inr rfl)

/-- The creation loop never changes the current job type or the removal
flag, never shrinks the step records, and never decreases the creation
counter. -/
theorem create_jobs_loop_frame (wf : Workflow) (inp : TickInput) :
    ∀ (l : List JobType) (r : Run),
      (create_jobs_loop wf inp l r).jobType = r.jobType
      ∧ (create_jobs_loop wf inp l r).removed = r.removed
      ∧ (∀ x ∈ r.steps, x ∈ (create_jobs_loop wf inp l r).steps)
      ∧ r.fsCreates ≤ (create_jobs_loop wf inp l r).fsCreates := by
  intro l
  induction l with
  | nil => intro r; exact ⟨rfl, rfl, fun x hx => hx, le_refl _⟩
  | cons jt rest ih =>
    intro r
    rw [create_jobs_loop]
    dsimp only
    split
    · split
      · exact ⟨rfl, rfl,
          fun x hx => (insertStep_mem x jt r.steps).mpr (Or.inl hx), by simp⟩
      · exact ⟨rfl, rfl,
          fun x hx => (insertStep_mem x jt r.steps).mpr (Or.inl hx), by simp⟩
    · split
      · exact ⟨(ih _).1, (ih _).2.1,
          fun x hx => (ih _).2.2.1 x ((insertStep_mem x jt r.steps).mpr (Or.inl hx)),
          le_trans (by simp) (ih _).2.2.2⟩
      · exact ⟨(ih _).1, (ih _).2.1,
          fun x hx => (ih _).2.2.1 x ((insertStep_mem x jt r.steps).mpr (Or.inl hx)),
          le_trans (by simp) (ih _).2.2.2⟩

/-- When the creation loop touches no `final-staging` entry, it leaves
the creation counter alone and does not add a `final-staging` step
record. -/
theorem create_jobs_loop_no_fs (wf : Workflow) (inp : TickInput) :
    ∀ (l : List JobType) (r : Run), JobType.FINAL_STAGING ∉ l →
      (create_jobs_loop wf inp l r).fsCreates = r.fsCreates
      ∧ (JobType.FINAL_STAGING ∈ (create_jobs_loop wf inp l r).steps ↔
          JobType.FINAL_STAGING ∈ r.steps) := by
  intro l
  induction l with
  | nil => intro r _; exact ⟨rfl, Iff.rfl⟩
  | cons jt rest ih =>
    intro r hl
    have hjt : jt ≠ JobType.FINAL_STAGING := fun h => hl (h ▸ List.mem_cons_self jt rest)
    have hrest : JobType.FINAL_STAGING ∉ rest := fun h => hl (List.mem_cons_of_mem jt h)
    have hmem : ∀ s : List JobType,
        (JobType.FINAL_STAGING ∈ insertStep jt s ↔ JobType.FINAL_STAGING ∈ s) := by
      intro s
      rw [insertStep_mem]
      constructor
      · rintro (hx | hx)
        · exact hx
        · exact absurd hx.symm hjt
      · exact Or.inl
    rw [create_jobs_loop]
    dsimp only
    split
    · split
      · exact ⟨by simp [hjt], hmem r.steps⟩
      · exact ⟨by simp [hjt], hmem r.steps⟩
    · split
      · exact ⟨by rw [(ih _ hrest).1]; simp [hjt],
          ((ih _ hrest).2).trans (hmem r.steps)⟩
      · exact ⟨by rw [(ih _ hrest).1]; simp [hjt],
          ((ih _ hrest).2).trans (hmem r.steps)⟩

/-- A nonempty creation loop ends in status `RUNNING` or `ERROR`. -/
theorem create_jobs_loop_status_mem (wf : Workflow) (inp : TickInput) :
    ∀ (l : List JobType) (r : Run), l ≠ [] →
      (create_jobs_loop wf inp l r).status = JobStatus.RUNNING
      ∨ (create_jobs_loop wf inp l r).status = JobStatus.ERROR := by
  intro l
  induction l with
  | nil => intro r h; exact absurd rfl h
  | cons jt rest ih =>
    intro r _
    rw [create_jobs_loop]
    dsimp only
    split
    · split
      · exact Or.inl rfl
      · exact Or.inr rfl
    · split
      · cases hrest : rest with
        | nil => rw [create_jobs_loop]; exact Or.inl rfl
        | cons b bs => subst hrest; exact ih _ (by simp)
      · cases hrest : rest with
        | nil => rw [create_jobs_loop]; exact Or.inr rfl
        | cons b bs => subst hrest; exact ih _ (by simp)

/-- The creation loop for a launch list headed by `final-staging`, when
the successor of `final-staging` is `complete`: exactly one creation is
performed and a step record is left behind. -/
theorem create_jobs_loop_fs_head (wf : Workflow) (inp : TickInput)
    (rest : List JobType) (r : Run)
    (hnext : (stepOf wf JobType.FINAL_STAGING).next = JobType.COMPLETE) :
    (create_jobs_loop wf inp (JobType.FINAL_STAGING :: rest) r).fsCreates =
      r.fsCreates + 1
    ∧ JobType.FINAL_STAGING ∈
        (create_jobs_loop wf inp (JobType.FINAL_STAGING :: rest) r).steps := by
  unfold create_jobs_loop
  cases hc : inp.createOk JobType.FINAL_STAGING <;>
    simp [hc, hnext, insertStep_self]

/-- Outcome shapes of the `RUNNING` inspection block: it is a no-op, or
it flags the run `ERROR` (possibly extending the provenance) while
leaving every other field alone, or (on a successful completion) it
advances the job type to the successor of the inspected step, either
keeping the step records (successor present and different from
`staging`) or popping them down to `staging` and re-arming status
`NEW`. -/
theorem handle_run_inspect_cases (wf : Workflow) (inp : TickInput) (r : Run) :
    handle_run_inspect wf inp r = r
    ∨ (∃ p, handle_run_inspect wf inp r =
        { r with status := JobStatus.ERROR, status_prov := p })
    ∨ (r.status = JobStatus.RUNNING
        ∧ (∃ p w, handle_run_inspect wf inp r =
            { r with jobType := (stepOf wf r.jobType).next, status_prov := p, writes := w })
        ∧ (stepOf wf r.jobType).next ∈ r.steps
        ∧ (stepOf wf r.jobType).next ≠ JobType.STAGING)
    ∨ (r.status = JobStatus.RUNNING
        ∧ ∃ p w, handle_run_inspect wf inp r =
            { r with jobType := (stepOf wf r.jobType).next, status_prov := p, writes := w,
                     steps := r.steps.filter (fun i => i = JobType.STAGING),
                     status := JobStatus.NEW }) := by
  unfold handle_run_inspect
  by_cases h0 : r.status = JobStatus.RUNNING ∧ r.status ≠ JobStatus.ERROR
  · rw [if_pos h0]
    by_cases h1 : (inp.found = true) ∧ inp.jobStat = KJobStat.Failed
    · rw [if_pos h1]
      dsimp only
      rw [if_pos h1.1, if_pos (Or.inr h1.2)]
      exact Or.inr (Or.inl ⟨_, rfl⟩)
    · rw [if_neg h1]
      by_cases hf : inp.found = true
      · rw [if_pos hf]
        by_cases h2 : inp.jobStat = KJobStat.Timeout ∨ inp.jobStat = KJobStat.Failed
        · rw [if_pos h2]
          exact Or.inr (Or.inl ⟨_, rfl⟩)
        · rw [if_neg h2]
          by_cases h3 : inp.jobStat = KJobStat.Complete ∧ ¬ inp.podFailed = true
          · rw [if_pos h3]
            by_cases h4 : inp.delFailed = true
            · rw [if_pos h4]
              exact Or.inr (Or.inl ⟨_, rfl⟩)
            · rw [if_neg h4]
              dsimp only
              by_cases h5 : (stepOf wf r.jobType).next ∉ r.steps
                ∨ (stepOf wf r.jobType).next = JobType.STAGING
              · rw [if_pos h5]
                exact Or.inr (Or.inr (Or.inr ⟨h0.1, _, _, rfl⟩))
              · rw [if_neg h5]
                push_neg at h5
                exact Or.inr (Or.inr (Or.inl ⟨h0.1, ⟨_, _, rfl⟩, h5.1, h5.2⟩))
          · rw [if_neg h3]
            by_cases h6 : inp.podFailed = true
            · rw [if_pos h6]
              exact Or.inr (Or.inl ⟨_, rfl⟩)
            · rw [if_neg h6]
              exact Or.inl rfl
      · rw [if_neg hf]
        exact Or.inr (Or.inl ⟨_, rfl⟩)
  · rw [if_neg h0]
    exact Or.inl rfl

/-- The inspection block never changes the creation counter or the
removal flag, and never adds a `final-staging` step record. -/
theorem handle_run_inspect_frame (wf : Workflow) (inp : TickInput) (r : Run) :
    (handle_run_inspect wf inp r).fsCreates = r.fsCreates
    ∧ (handle_run_inspect wf inp r).removed = r.removed
    ∧ (JobType.FINAL_STAGING ∈ (handle_run_inspect wf inp r).steps →
        JobType.FINAL_STAGING ∈ r.steps) := by
  rcases handle_run_inspect_cases wf inp r with heq | ⟨p, heq⟩ |
    ⟨_, ⟨p, w, heq⟩, _, _⟩ | ⟨_, p, w, heq⟩ <;> rw [heq]
  · exact ⟨rfl, rfl, fun hm => hm⟩
  · exact ⟨rfl, rfl, fun hm => hm⟩
  · exact ⟨rfl, rfl, fun hm => hm⟩
  · refine ⟨rfl, rfl, fun hm => ?_⟩
    exact (List.mem_filter.mp hm).1

/-- The error demotion at the end of `handle_run` only rewrites the job
type. -/
theorem handle_run_fixup_frame (r : Run) :
    (handle_run_fixup r).fsCreates = r.fsCreates
    ∧ (handle_run_fixup r).removed = r.removed
    ∧ (handle_run_fixup r).steps = r.steps
    ∧ (handle_run_fixup r).status = r.status := by
  unfold handle_run_fixup
  split <;> exact ⟨rfl, rfl, rfl, rfl⟩

/-- `final-staging` is not among the step records the loop-back pop
leaves behind. -/
theorem fs_not_mem_pop (steps : List JobType) :
    JobType.FINAL_STAGING ∉ steps.filter (fun i => i = JobType.STAGING) := by
  intro hm
  have := (List.mem_filter.mp hm).2
  simp at this

/-- After the cleanup step has been created once (and its step record is
present, with the run sitting on the cleanup step), inspection plus the
error demotion keep the at-most-once invariant. -/
theorem inspect_fixup_fs1 (wf : Workflow) (inp : TickInput)
    (H2 : (stepOf wf JobType.FINAL_STAGING).next = JobType.COMPLETE) (r1 : Run)
    (hfs : r1.fsCreates = 1) (hmem : JobType.FINAL_STAGING ∈ r1.steps)
    (hjt : r1.jobType = JobType.FINAL_STAGING) (hrm : r1.removed = false)
    (hst : r1.status = JobStatus.RUNNING ∨ r1.status = JobStatus.ERROR) :
    FsInv (handle_run_fixup (handle_run_inspect wf inp r1)) := by
  rcases handle_run_inspect_cases wf inp r1 with heq | ⟨p, heq⟩ |
    ⟨hrun, ⟨p, w, heq⟩, hnmem, hnstag⟩ | ⟨hrun, p, w, heq⟩ <;> rw [heq]
  · by_cases hs : r1.status = JobStatus.ERROR
    · unfold handle_run_fixup
      rw [if_pos hs]
      exact ⟨by simp [hfs], fun _ => hfs, fun _ => Or.inr (Or.inr (Or.inl ⟨rfl, hmem⟩))⟩
    · unfold handle_run_fixup
      rw [if_neg hs]
      have hrun2 : r1.status = JobStatus.RUNNING := by
        rcases hst with h | h
        · exact h
        · exact absurd h hs
      exact ⟨by simp [hfs], fun _ => hfs,
        fun _ => Or.inr (Or.inr (Or.inr ⟨hjt, hrun2, hmem⟩))⟩
  · unfold handle_run_fixup
    rw [if_pos rfl]
    exact ⟨by simp [hfs], fun _ => hfs, fun _ => Or.inr (Or.inr (Or.inl ⟨rfl, hmem⟩))⟩
  · have hnext : (stepOf wf r1.jobType).next = JobType.COMPLETE := by rw [hjt]; exact H2
    unfold handle_run_fixup
    rw [if_neg (by simp [hrun])]
    refine ⟨by simp [hfs], fun _ => hfs, fun _ => Or.inr (Or.inl ?_)⟩
    simp [hnext]
  · have hnext : (stepOf wf r1.jobType).next = JobType.COMPLETE := by rw [hjt]; exact H2
    unfold handle_run_fixup
    rw [if_neg (by simp)]
    refine ⟨by simp [hfs], fun hm => absurd hm (fs_not_mem_pop r1.steps),
      fun _ => Or.inr (Or.inl ?_)⟩
    simp [hnext]

/-- Before any cleanup-step creation, inspection plus the error demotion
keep the at-most-once invariant. -/
theorem inspect_fixup_fs0 (wf : Workflow) (inp : TickInput) (r1 : Run)
    (hfs : r1.fsCreates = 0) (hnm : JobType.FINAL_STAGING ∉ r1.steps) :
    FsInv (handle_run_fixup (handle_run_inspect wf inp r1)) := by
  have hif := handle_run_inspect_frame wf inp r1
  have hff := handle_run_fixup_frame (handle_run_inspect wf inp r1)
  refine ⟨?_, ?_, ?_⟩
  · rw [hff.1, hif.1, hfs]
    omega
  · intro hm
    rw [hff.2.2.1] at hm
    exact absurd (hif.2.2 hm) hnm
  · intro h1
    rw [hff.1, hif.1, hfs] at h1
    exact absurd h1 (by omega)

/-- `handle_run` preserves the at-most-once invariant for runs the loop
dispatches to it (job type neither `COMPLETE` nor `ERROR`, still in the
active list). -/
theorem handle_run_FsInv (wf : Workflow) (inp : TickInput)
    (H2 : (stepOf wf JobType.FINAL_STAGING).next = JobType.COMPLETE)
    (H3 : ∀ jt, JobType.FINAL_STAGING ∉ (stepOf wf jt).parallel)
    (r : Run)
    (hjc : r.jobType ≠ JobType.COMPLETE) (hje : r.jobType ≠ JobType.ERROR)
    (hrm : r.removed = false) (h : FsInv r) : FsInv (handle_run wf inp r) := by
  obtain ⟨h1, h2, h3⟩ := h
  show FsInv (handle_run_fixup (handle_run_inspect wf inp (handle_run_new wf inp r)))
  by_cases hnew : r.status = JobStatus.NEW
  · have hr1 : handle_run_new wf inp r =
        create_jobs_loop wf inp
          ([r.jobType] ++
            (if (stepOf wf r.jobType).parallel ≠ [] then (stepOf wf r.jobType).parallel
             else [])) r := by
      unfold handle_run_new
      rw [if_pos hnew]
    by_cases hfsjt : r.jobType = JobType.FINAL_STAGING
    · have hfs0 : r.fsCreates = 0 := by
        rcases Nat.lt_or_ge r.fsCreates 1 with hlt | hge
        · omega
        · exfalso
          rcases h3 (by omega) with hx | hx | ⟨hx, _⟩ | ⟨_, hx, _⟩
          · rw [hx] at hrm
            exact Bool.noConfusion hrm
          · exact hjc hx
          · exact hje hx
          · rw [hnew] at hx
            exact JobStatus.noConfusion hx
      rw [hr1]
      have hL : [r.jobType] ++
          (if (stepOf wf r.jobType).parallel ≠ [] then (stepOf wf r.jobType).parallel
           else []) =
          JobType.FINAL_STAGING ::
            (if (stepOf wf r.jobType).parallel ≠ [] then (stepOf wf r.jobType).parallel
             else []) := by
        rw [hfsjt]
        rfl
      rw [hL]
      have hhead := create_jobs_loop_fs_head wf inp
        (if (stepOf wf r.jobType).parallel ≠ [] then (stepOf wf r.jobType).parallel
         else []) r H2
      have hframe := create_jobs_loop_frame wf inp
        (JobType.FINAL_STAGING ::
          (if (stepOf wf r.jobType).parallel ≠ [] then (stepOf wf r.jobType).parallel
           else [])) r
      have hstat := create_jobs_loop_status_mem wf inp
        (JobType.FINAL_STAGING ::
          (if (stepOf wf r.jobType).parallel ≠ [] then (stepOf wf r.jobType).parallel
           else [])) r (by simp)
      refine inspect_fixup_fs1 wf inp H2 _ ?_ hhead.2 ?_ ?_ hstat
      · rw [hhead.1, hfs0]
      · rw [hframe.1, hfsjt]
      · rw [hframe.2.1, hrm]
    · have hfs0 : r.fsCreates = 0 := by
        rcases Nat.lt_or_ge r.fsCreates 1 with hlt | hge
        · omega
        · exfalso
          rcases h3 (by omega) with hx | hx | ⟨hx, _⟩ | ⟨hx, _, _⟩
          · rw [hx] at hrm
            exact Bool.noConfusion hrm
          · exact hjc hx
          · exact hje hx
          · exact hfsjt hx
      have hnsteps : JobType.FINAL_STAGING ∉ r.steps := by
        intro hm
        rw [h2 hm] at hfs0
        exact Nat.noConfusion hfs0
      have hFSL : JobType.FINAL_STAGING ∉ [r.jobType] ++
          (if (stepOf wf r.jobType).parallel ≠ [] then (stepOf wf r.jobType).parallel
           else []) := by
        intro hm
        rcases List.mem_append.mp hm with hm | hm
        · rw [List.mem_singleton] at hm
          exact hfsjt hm.symm
        · by_cases hp : (stepOf wf r.jobType).parallel ≠ []
          · rw [if_pos hp] at hm
            exact H3 r.jobType hm
          · rw [if_neg hp] at hm
            exact List.not_mem_nil _ hm
      rw [hr1]
      have hnofs := create_jobs_loop_no_fs wf inp
        ([r.jobType] ++
          (if (stepOf wf r.jobType).parallel ≠ [] then (stepOf wf r.jobType).parallel
           else [])) r hFSL
      refine inspect_fixup_fs0 wf inp _ ?_ ?_
      · rw [hnofs.1, hfs0]
      · intro hm
        exact hnsteps (hnofs.2.mp hm)
  · have hr1 : handle_run_new wf inp r = r := by
      unfold handle_run_new
      rw [if_neg hnew]
    rw [hr1]
    rcases Nat.lt_or_ge r.fsCreates 1 with hlt | hge
    · refine inspect_fixup_fs0 wf inp r (by omega) ?_
      intro hm
      have := h2 hm
      omega
    · have hfs1 : r.fsCreates = 1 := by omega
      rcases h3 hfs1 with hx | hx | ⟨hx, _⟩ | ⟨hx, hxs, hxm⟩
      · rw [hx] at hrm
        exact Bool.noConfusion hrm
      · exact absurd hx hjc
      · exact absurd hx hje
      · exact inspect_fixup_fs1 wf inp H2 r hfs1 hxm hx hrm (Or.inl hxs)

/-- One supervisor tick preserves the at-most-once invariant of the
cleanup step. -/
theorem tick_FsInv (wf : Workflow) (inp : TickInput)
    (H1 : (wf.steps JobType.FINAL_STAGING).isSome)
    (H2 : (stepOf wf JobType.FINAL_STAGING).next = JobType.COMPLETE)
    (H3 : ∀ jt, JobType.FINAL_STAGING ∉ (stepOf wf jt).parallel)
    (r : Run) (h : FsInv r) : FsInv (tick wf inp r) := by
  obtain ⟨h1, h2, h3⟩ := h
  unfold tick
  by_cases hrm : r.removed = true
  · rw [if_pos hrm]
    exact ⟨h1, h2, h3⟩
  · rw [if_neg hrm]
    by_cases hjc : r.jobType = JobType.COMPLETE
    · rw [if_pos hjc]
      unfold handle_job_complete
      exact ⟨h1, h2, fun _ => Or.inl rfl⟩
    · rw [if_neg hjc]
      by_cases hje : r.jobType = JobType.ERROR
      · rw [if_pos hje]
        unfold handle_job_error
        rw [if_neg (by
          rw [Option.isNone_iff_eq_none]
          intro hx
          rw [hx] at H1
          exact Bool.noConfusion H1)]
        by_cases hstep : JobType.FINAL_STAGING ∈ r.steps
        · rw [if_pos hstep]
          exact ⟨h1, h2, fun _ => Or.inr (Or.inl rfl)⟩
        · rw [if_neg hstep]
          have hfs0 : r.fsCreates = 0 := by
            rcases Nat.lt_or_ge r.fsCreates 1 with hlt | hge
            · omega
            · exfalso
              rcases h3 (by omega) with hx | hx | ⟨_, hx⟩ | ⟨_, _, hx⟩
              · exact hrm hx
              · exact hjc hx
              · exact hstep hx
              · exact hstep hx
          refine ⟨by simp [hfs0], fun hm => absurd hm hstep, fun h1x => ?_⟩
          rw [hfs0] at h1x
          exact absurd h1x (by omega)
      · rw [if_neg hje]
        exact handle_run_FsInv wf inp H2 H3 r hjc hje
          (by simpa using hrm) ⟨h1, h2, h3⟩

/-- The creation counter never decreases across a tick. -/
theorem tick_fs_mono (wf : Workflow) (inp : TickInput) (r : Run) :
    r.fsCreates ≤ (tick wf inp r).fsCreates := by
  unfold tick
  by_cases hrm : r.removed = true
  · rw [if_pos hrm]
  · rw [if_neg hrm]
    by_cases hjc : r.jobType = JobType.COMPLETE
    · rw [if_pos hjc]
      unfold handle_job_complete
      exact le_refl _
    · rw [if_neg hjc]
      by_cases hje : r.jobType = JobType.ERROR
      · rw [if_pos hje]
        unfold handle_job_error
        split
        · exact le_refl _
        · split
          · exact le_refl _
          · exact le_refl _
      · rw [if_neg hje]
        show r.fsCreates ≤
          (handle_run_fixup (handle_run_inspect wf inp (handle_run_new wf inp r))).fsCreates
        rw [(handle_run_fixup_frame _).1, (handle_run_inspect_frame wf inp _).1]
        unfold handle_run_new
        by_cases hnew : r.status = JobStatus.NEW
        · rw [if_pos hnew]
          exact (create_jobs_loop_frame wf inp _ r).2.2.2
        · rw [if_neg hnew]

/-- One supervisor tick preserves the progress invariant: a pending
cleanup obligation is either discharged by a creation or survives the
tick. -/
theorem tick_FsDue (wf : Workflow) (inp : TickInput)
    (H1 : (wf.steps JobType.FINAL_STAGING).isSome)
    (r : Run) (hInv : FsInv r) (h : FsDue r) : FsDue (tick wf inp r) := by
  rcases h with hge | ⟨hrm, hcase⟩
  · exact Or.inl (le_trans hge (tick_fs_mono wf inp r))
  · unfold tick
    rw [if_neg (by rw [hrm]; simp)]
    rcases hcase with herr | ⟨hfsj, hnew⟩
    · rw [if_neg (by rw [herr]; decide), if_pos herr]
      unfold handle_job_error
      rw [if_neg (by
        rw [Option.isNone_iff_eq_none]
        intro hx
        rw [hx] at H1
        exact Bool.noConfusion H1)]
      by_cases hstep : JobType.FINAL_STAGING ∈ r.steps
      · rw [if_pos hstep]
        exact Or.inl (by rw [hInv.2.1 hstep])
      · rw [if_neg hstep]
        exact Or.inr ⟨hrm, Or.inr ⟨rfl, rfl⟩⟩
    · rw [if_neg (by rw [hfsj]; decide), if_neg (by rw [hfsj]; decide)]
      refine Or.inl ?_
      show 1 ≤ (handle_run_fixup (handle_run_inspect wf inp (handle_run_new wf inp r))).fsCreates
      rw [(handle_run_fixup_frame _).1, (handle_run_inspect_frame wf inp _).1]
      unfold handle_run_new
      rw [if_pos hnew]
      have hL : [r.jobType] ++
          (if (stepOf wf r.jobType).parallel ≠ [] then (stepOf wf r.jobType).parallel
           else []) =
          r.jobType ::
            (if (stepOf wf r.jobType).parallel ≠ [] then (stepOf wf r.jobType).parallel
             else []) := rfl
      rw [hL, hfsj]
      rw [create_jobs_loop]
      dsimp only
      split
      · split
        · simp
        · simp
      · refine le_trans ?_ (create_jobs_loop_frame wf inp _ _).2.2.2
        split
        · simp
        · simp

/-- C1 (amended): a run whose workflow defines `final-staging` as a
terminal cleanup step (successor `complete`, not a parallel sibling of
any step) and that fails strictly before `final-staging` is routed by
the error handler to job type `final-staging` with status `NEW`, and
`final-staging` is created exactly once before the run leaves the
active list. -/
theorem final_staging_failure_routing (wf : Workflow)
    (H1 : (wf.steps JobType.FINAL_STAGING).isSome = true)
    (H2 : (stepOf wf JobType.FINAL_STAGING).next = JobType.COMPLETE)
    (H3 : ∀ jt, JobType.FINAL_STAGING ∉ (stepOf wf jt).parallel)
    (r0 : Run) (hsteps0 : r0.steps = []) (hfs0 : r0.fsCreates = 0)
    (L1 L2 : List TickInput)
    (hfail1 : (ticks wf r0 L1).jobType = JobType.ERROR)
    (hfail2 : (ticks wf r0 L1).fsCreates = 0)
    (hfail3 : (ticks wf r0 L1).removed = false)
    (hterm : (ticks wf r0 (L1 ++ L2)).removed = true) :
    (∀ inp, (tick wf inp (ticks wf r0 L1)).jobType = JobType.FINAL_STAGING
          ∧ (tick wf inp (ticks wf r0 L1)).status = JobStatus.NEW)
    ∧ (ticks wf r0 (L1 ++ L2)).fsCreates = 1 := by
  have hInv0 : FsInv r0 := by
    refine ⟨by rw [hfs0]; omega, fun hm => ?_, fun h1 => ?_⟩
    · rw [hsteps0] at hm
      exact absurd hm (List.not_mem_nil _)
    · rw [hfs0] at h1
      exact absurd h1 (by omega)
  have hticksInv : ∀ (L : List TickInput) (r : Run), FsInv r → FsInv (ticks wf r L) := by
    intro L
    induction L with
    | nil => intro r h; exact h
    | cons i L ih =>
      intro r h
      exact ih _ (tick_FsInv wf i H1 H2 H3 r h)
  have hInv1 := hticksInv L1 r0 hInv0
  have hnm1 : JobType.FINAL_STAGING ∉ (ticks wf r0 L1).steps := by
    intro hm
    have hx := hInv1.2.1 hm
    rw [hfail2] at hx
    exact Nat.noConfusion hx
  constructor
  · intro inp
    unfold tick
    rw [if_neg (by rw [hfail3]; simp), if_neg (by rw [hfail1]; decide), if_pos hfail1]
    unfold handle_job_error
    rw [if_neg (by
      rw [Option.isNone_iff_eq_none]
      intro hx
      rw [hx] at H1
      exact Bool.noConfusion H1)]
    rw [if_neg hnm1]
    exact ⟨rfl, rfl⟩
  · have happ : ticks wf r0 (L1 ++ L2) = ticks wf (ticks wf r0 L1) L2 := by
      unfold ticks
      rw [List.foldl_append]
    have hDuePair : ∀ (L : List TickInput) (r : Run), FsInv r → FsDue r →
        FsDue (ticks wf r L) ∧ FsInv (ticks wf r L) := by
      intro L
      induction L with
      | nil => intro r hi hd; exact ⟨hd, hi⟩
      | cons i L ih =>
        intro r hi hd
        exact ih _ (tick_FsInv wf i H1 H2 H3 r hi) (tick_FsDue wf i H1 r hi hd)
    have hfinal := hDuePair L2 (ticks wf r0 L1) hInv1 (Or.inr ⟨hfail3, Or.inl hfail1⟩)
    rw [happ] at hterm ⊢
    rcases hfinal.1 with hge | ⟨hrm, _⟩
    · have hle := hfinal.2.1
      omega
    · rw [hterm] at hrm
      exact Bool.noConfusion hrm

/-- Witness for `final_staging_failure_routing`: in the workflow
`staging → final-staging → complete`, the run fails at `staging` on the
first tick, is routed to `final-staging`, and terminates with exactly
one `final-staging` creation. -/
theorem final_staging_failure_routing_witness :
    ((tick wfTwoStep inpPending (ticks wfTwoStep runStart [inpFailed])).jobType =
        JobType.FINAL_STAGING
      ∧ (tick wfTwoStep inpPending (ticks wfTwoStep runStart [inpFailed])).status =
        JobStatus.NEW)
    ∧ (ticks wfTwoStep runStart
        ([inpFailed] ++ [inpPending, inpComplete, inpComplete])).fsCreates = 1 :=
  ⟨(final_staging_failure_routing wfTwoStep (by decide) (by decide) (by decide)
      runStart rfl rfl [inpFailed] [inpPending, inpComplete, inpComplete]
      (by decide) (by decide) (by decide) (by decide)).1 inpPending,
   (final_staging_failure_routing wfTwoStep (by decide) (by decide) (by decide)
      runStart rfl rfl [inpFailed] [inpPending, inpComplete, inpComplete]
      (by decide) (by decide) (by decide) (by decide)).2⟩


/-- A string is a character-prefix of itself extended by an append. -/
theorem data_prefix_append (a b : String) : a.data <+: (a ++ b).data := by
  rw [String.data_append]
  exact List.prefix_append _ _

/-- Two consecutive appends preserve the character-prefix. -/
theorem data_prefix_two (p b c : String) : p.data <+: (p ++ b ++ c).data :=
  (data_prefix_append p b).trans (data_prefix_append (p ++ b) c)

/-- Three consecutive appends preserve the character-prefix. -/
theorem data_prefix_three (p b c d : String) : p.data <+: (p ++ b ++ c ++ d).data :=
  (data_prefix_two p b c).trans (data_prefix_append (p ++ b ++ c) d)

/-- Five consecutive appends preserve the character-prefix. -/
theorem data_prefix_five (p b c d e f : String) :
    p.data <+: (p ++ b ++ c ++ d ++ e ++ f).data :=
  ((data_prefix_three p b c d).trans (data_prefix_append (p ++ b ++ c ++ d) e)).trans
    (data_prefix_append (p ++ b ++ c ++ d ++ e) f)

/-- Extending the provenance without writing keeps the write chain. -/
theorem writesChain_extend {ws : List String} {p p2 : String}
    (hp : p.data <+: p2.data) (h : WritesChain ws p) : WritesChain ws p2 :=
  ⟨h.1, fun w hw => (h.2 w hw).trans hp⟩

/-- Appending to the provenance and writing the result keeps the write
chain. -/
theorem writesChain_push {ws : List String} {p p2 : String}
    (hp : p.data <+: p2.data) (h : WritesChain ws p) :
    WritesChain (ws ++ [p2]) p2 := by
  constructor
  · rw [List.chain'_append]
    refine ⟨h.1, List.chain'_singleton _, ?_⟩
    intro x hx y hy
    have hx2 : x ∈ ws := List.mem_of_mem_getLast? hx
    have hy2 : p2 = y := by simpa using hy
    rw [← hy2]
    exact (h.2 x hx2).trans hp
  · intro w hw
    rcases List.mem_append.mp hw with hw | hw
    · exact (h.2 w hw).trans hp
    · rw [List.mem_singleton] at hw
      exact hw ▸ List.prefix_refl _

/-- The creation loop preserves the write chain. -/
theorem create_jobs_loop_writesChain (wf : Workflow) (inp : TickInput) :
    ∀ (l : List JobType) (r : Run), WritesChain r.writes r.status_prov →
      WritesChain (create_jobs_loop wf inp l r).writes
        (create_jobs_loop wf inp l r).status_prov := by
  intro l
  induction l with
  | nil => intro r h; exact h
  | cons jt rest ih =>
    intro r h
    rw [create_jobs_loop]
    dsimp only
    split
    · split
      · exact writesChain_push (data_prefix_three _ _ _ _) h
      · exact h
    · split
      · exact ih _ (writesChain_push (data_prefix_three _ _ _ _) h)
      · exact ih _ h

/-- The inspection block preserves the write chain. -/
theorem handle_run_inspect_writesChain (wf : Workflow) (inp : TickInput) (r : Run)
    (h : WritesChain r.writes r.status_prov) :
    WritesChain (handle_run_inspect wf inp r).writes
      (handle_run_inspect wf inp r).status_prov := by
  unfold handle_run_inspect
  by_cases h0 : r.status = JobStatus.RUNNING ∧ r.status ≠ JobStatus.ERROR
  · rw [if_pos h0]
    by_cases h1 : (inp.found = true) ∧ inp.jobStat = KJobStat.Failed
    · rw [if_pos h1]
      dsimp only
      rw [if_pos h1.1, if_pos (Or.inr h1.2)]
      exact writesChain_extend (data_prefix_three _ _ _ _) h
    · rw [if_neg h1]
      by_cases hf : inp.found = true
      · rw [if_pos hf]
        by_cases h2 : inp.jobStat = KJobStat.Timeout ∨ inp.jobStat = KJobStat.Failed
        · rw [if_pos h2]
          exact h
        · rw [if_neg h2]
          by_cases h3 : inp.jobStat = KJobStat.Complete ∧ ¬ inp.podFailed = true
          · rw [if_pos h3]
            by_cases h4 : inp.delFailed = true
            · rw [if_pos h4]
              exact h
            · rw [if_neg h4]
              dsimp only
              by_cases h5 : (stepOf wf r.jobType).next ∉ r.steps
                ∨ (stepOf wf r.jobType).next = JobType.STAGING
              · rw [if_pos h5]
                exact writesChain_push (data_prefix_three _ _ _ _) h
              · rw [if_neg h5]
                exact writesChain_push (data_prefix_three _ _ _ _) h
          · rw [if_neg h3]
            by_cases h6 : inp.podFailed = true
            · rw [if_pos h6]
              exact h
            · rw [if_neg h6]
              exact h
      · rw [if_neg hf]
        exact h
  · rw [if_neg h0]
    exact h

/-- One supervisor tick preserves the write chain of a run: every
provenance mutation is an append, and every database write carries the
current provenance. -/
theorem tick_writesChain (wf : Workflow) (inp : TickInput) (r : Run)
    (h : WritesChain r.writes r.status_prov) :
    WritesChain (tick wf inp r).writes (tick wf inp r).status_prov := by
  unfold tick
  by_cases hrm : r.removed = true
  · rw [if_pos hrm]
    exact h
  · rw [if_neg hrm]
    by_cases hjc : r.jobType = JobType.COMPLETE
    · rw [if_pos hjc]
      unfold handle_job_complete
      exact writesChain_push (data_prefix_two _ _ _) h
    · rw [if_neg hjc]
      by_cases hje : r.jobType = JobType.ERROR
      · rw [if_pos hje]
        unfold handle_job_error
        split
        · exact writesChain_push (data_prefix_five _ _ _ _ _ _) h
        · split
          · exact writesChain_push (data_prefix_three _ _ _ _) h
          · exact writesChain_push (data_prefix_append _ _) h
      · rw [if_neg hje]
        show WritesChain
          (handle_run_fixup (handle_run_inspect wf inp (handle_run_new wf inp r))).writes
          (handle_run_fixup (handle_run_inspect wf inp (handle_run_new wf inp r))).status_prov
        have hx : WritesChain (handle_run_new wf inp r).writes
            (handle_run_new wf inp r).status_prov := by
          unfold handle_run_new
          by_cases hnew : r.status = JobStatus.NEW
          · rw [if_pos hnew]
            exact create_jobs_loop_writesChain wf inp _ r h
          · rw [if_neg hnew]
            exact h
        have hy := handle_run_inspect_writesChain wf inp _ hx
        unfold handle_run_fixup
        split
        · exact hy
        · exact hy

/-- C5 (amended): for every run object in the active list, the sequence
of `status_prov` values it writes through `update_job_status` is
prefix-ordered — the provenance is only ever appended to, and every
write carries the current provenance — for any number of supervisor
ticks.  (Writes issued for the same database run id by rejected
duplicate submissions are not writes of the run object and break the
ordering; see the counterexample.) -/
theorem run_prov_writes_chain (wf : Workflow) (r : Run) (L : List TickInput)
    (h : WritesChain r.writes r.status_prov) :
    WritesChain (ticks wf r L).writes (ticks wf r L).status_prov := by
  induction L generalizing r with
  | nil => exact h
  | cons i L ih => exact ih _ (tick_writesChain wf i r h)

/-- Witness for `run_prov_writes_chain` on the concrete failing run. -/
theorem run_prov_writes_chain_witness :
    WritesChain (ticks wfTwoStep runStart [inpFailed, inpPending]).writes
      (ticks wfTwoStep runStart [inpFailed, inpPending]).status_prov :=
  run_prov_writes_chain wfTwoStep runStart [inpFailed, inpPending]
    ⟨by simp [runStart],
     by
      intro w hw
      simp only [runStart, List.mem_singleton] at hw
      rw [hw]
      exact List.prefix_refl _⟩

/-- C1 counterexample: in the workflow
`staging → final-staging → load-geo-server → complete` (which contains
`final-staging`), a run that fails strictly before `final-staging`
executes `final-staging` twice before leaving the active list: the
normal succession after the first cleanup pops the `final-staging` step
record, so the failure of `load-geo-server` routes to `final-staging` a
second time. -/
theorem final_staging_twice_cex :
    (wfThreeStep.steps JobType.FINAL_STAGING).isSome = true
    ∧ (ticks wfThreeStep runStart [inpFailed]).jobType = JobType.ERROR
    ∧ (ticks wfThreeStep runStart [inpFailed]).fsCreates = 0
    ∧ (ticks wfThreeStep runStart [inpFailed]).removed = false
    ∧ (ticks wfThreeStep runStart
        [inpFailed, inpPending, inpComplete, inpFailed, inpPending, inpComplete,
         inpComplete, inpComplete]).removed = true
    ∧ (ticks wfThreeStep runStart
        [inpFailed, inpPending, inpComplete, inpFailed, inpPending, inpComplete,
         inpComplete, inpComplete]).fsCreates = 2 :=
  ⟨by decide, by decide, by decide, by decide, by decide, by decide⟩

end APSViz
